import Mathlib

/-!
A verification development for the multi-task execution engine of the
`ags-cli` repository (Go).  The Go functions `buildTasks`, `runCommand`,
`runSingleTask`, `runTasksSequential`, `runTasksParallel` and
`printMultiTaskResults` are shallowly embedded as Lean functions: blocking
remote calls (sandbox creation, remote code execution, file reads, stdin,
the editor) become oracle fields of explicit environment structures, wall
clock durations become natural numbers (nanosecond counts are non-negative),
Go `error` values become `Option String` / `Except String`, and Go nil
pointers become `Option`.
-/

/-- Embeds Go struct `executionTask` (one unit of code to run). -/
structure ExecutionTask where
  id : Nat
  code : String
  source : String
  instanceNo : Nat
  totalInst : Nat
  deriving Repr, DecidableEq

/-- Embeds the SDK's structured execution error (name/value/traceback). -/
structure ExecError where
  name : String
  value : String
  traceback : String
  deriving Repr, DecidableEq

/-- Embeds the fields of the SDK's `toolcode.Execution` that the engine
reads: stdout lines, stderr lines and the optional structured error.
(The rich result payloads are never consulted by the aggregation or
exit-code logic and are omitted.) -/
structure Execution where
  stdout : List String
  stderr : List String
  error : Option ExecError
  deriving Repr, DecidableEq

/-- Embeds Go struct `taskResult`: `result` is the possibly-nil pointer to
the structured execution, `err` the possibly-nil transport/creation error,
durations in nanoseconds.  Go zero values are `none` / `0`. -/
structure TaskResult where
  task : ExecutionTask
  result : Option Execution
  err : Option String
  createDuration : Nat
  execDuration : Nat
  totalDuration : Nat
  deriving Repr, DecidableEq

/-- The failure test used by the first counting pass of
`printMultiTaskResults` (and by `printSingleTaskResult`):
`r.err != nil || (r.result != nil && r.result.Error != nil)`. -/
def isFailed (r : TaskResult) : Bool :=
  r.err.isSome || (match r.result with
    | some res => res.error.isSome
    | none => false)

/-- The failure test used by the second (buffered-branch) counting pass of
`printMultiTaskResults`:
`if r.err != nil {failed++} else if r.result != nil { if Error != nil {failed++} else {success++} } else {success++}`. -/
def bufferedIsFailed (r : TaskResult) : Bool :=
  if r.err.isSome then true
  else match r.result with
    | some res => res.error.isSome
    | none => false

/-- Number of failed results, first counting pass of `printMultiTaskResults`. -/
def failedCount (results : List TaskResult) : Nat :=
  results.countP isFailed

/-- Number of succeeded results, first counting pass of `printMultiTaskResults`
(the `else { success++ }` arm). -/
def succeededCount (results : List TaskResult) : Nat :=
  results.countP (fun r => !isFailed r)

/-- The exit decision appearing (three times) at the end of
`printMultiTaskResults`:
`if failed > 0 { if failed == len(results) { os.Exit(2) }; os.Exit(1) }`
with fall-through meaning exit code 0. -/
def exitOf (failed total : Nat) : Nat :=
  if 0 < failed then (if failed = total then 2 else 1) else 0

/-- Embeds the exit-code computation of `printMultiTaskResults`.  The three
branches of the Go function are kept: streaming mode and parallel text mode
exit using the first counting pass; the buffered branch (JSON mode or
sequential text mode) resets the counters and recounts with
`bufferedIsFailed` while building the formatter records, then exits. -/
def printMultiTaskResults (runStream runParallel isJSON : Bool)
    (results : List TaskResult) : Nat :=
  let failed := failedCount results
  if runStream then exitOf failed results.length
  else if !isJSON && runParallel then exitOf failed results.length
  else
    let failed2 := results.countP bufferedIsFailed
    exitOf failed2 results.length

theorem isFailed_eq_bufferedIsFailed (r : TaskResult) :
    bufferedIsFailed r = isFailed r := by
  unfold isFailed bufferedIsFailed
  cases h : r.err <;> cases hr : r.result <;> simp

/-- C1: For every results list produced by a multi-task run (such lists are
non-empty), the exit code computed by `printMultiTaskResults` is 0 when no
task failed, 1 when some but not all tasks failed, and 2 when every task
failed — in streaming mode, parallel text mode and buffered mode alike. -/
theorem exitCode_law (runStream runParallel isJSON : Bool)
    (results : List TaskResult) (hne : 0 < results.length) :
    (failedCount results = 0 →
      printMultiTaskResults runStream runParallel isJSON results = 0) ∧
    (0 < failedCount results → failedCount results < results.length →
      printMultiTaskResults runStream runParallel isJSON results = 1) ∧
    (failedCount results = results.length →
      printMultiTaskResults runStream runParallel isJSON results = 2) := by
  have hcnt : results.countP bufferedIsFailed = failedCount results := by
    unfold failedCount
    exact List.countP_congr (fun r _ => by rw [isFailed_eq_bufferedIsFailed])
  unfold printMultiTaskResults exitOf
  refine ⟨?_, ?_, ?_⟩
  · intro h0
    cases runStream <;> cases runParallel <;> cases isJSON <;>
      simp [hcnt, h0]
  · intro hpos hlt
    cases runStream <;> cases runParallel <;> cases isJSON <;>
      simp [hcnt, hpos, Nat.ne_of_lt hlt]
  · intro heq
    have hpos : 0 < failedCount results := heq ▸ hne
    have hnil : ¬results = [] := by
      intro h; rw [h] at hne; exact Nat.lt_irrefl 0 hne
    cases runStream <;> cases runParallel <;> cases isJSON <;>
      simp [hcnt, hpos, heq, hnil]

/-- Witness for `exitCode_law` at a concrete two-element results list with
one failure: exit code 1. -/
theorem exitCode_law_witness :
    0 < ([⟨⟨1, "x", "<code>", 1, 1⟩, some ⟨[], [], none⟩, none, 0, 0, 0⟩,
          ⟨⟨2, "x", "<code>", 2, 2⟩, none, some "failed to create sandbox: boom", 0, 0, 0⟩]
         : List TaskResult).length ∧
    printMultiTaskResults false false false
        [⟨⟨1, "x", "<code>", 1, 1⟩, some ⟨[], [], none⟩, none, 0, 0, 0⟩,
         ⟨⟨2, "x", "<code>", 2, 2⟩, none, some "failed to create sandbox: boom", 0, 0, 0⟩] = 1 := by
  refine ⟨by decide, ?_⟩
  have h := exitCode_law false false false
      [⟨⟨1, "x", "<code>", 1, 1⟩, some ⟨[], [], none⟩, none, 0, 0, 0⟩,
       ⟨⟨2, "x", "<code>", 2, 2⟩, none, some "failed to create sandbox: boom", 0, 0, 0⟩]
      (by decide)
  exact h.2.1 (by decide) (by decide)

/-- C3: a task result counts as failed exactly when its transport/creation
error is non-nil or its structured execution result is non-nil and carries a
non-nil execution error, and the succeeded and failed counts of the
aggregator always sum to the number of results. -/
theorem failed_counting_correct :
    (∀ r : TaskResult, isFailed r = true ↔
      (r.err ≠ none ∨ ∃ res, r.result = some res ∧ res.error ≠ none)) ∧
    (∀ results : List TaskResult,
      succeededCount results + failedCount results = results.length) := by
  constructor
  · intro r
    unfold isFailed
    cases h : r.err <;> cases hr : r.result <;>
      simp [Option.isSome_iff_ne_none]
  · intro results
    unfold succeededCount failedCount
    induction results with
    | nil => rfl
    | cons r rs ih =>
      by_cases h : isFailed r = true <;>
        simp [List.countP_cons, h, ih] <;> omega

/-- Go `max(runRepeat, 1)`: the effective repetition count used everywhere
inside `buildTasks` (the `--repeat` flag is a Go `int`). -/
def effRepeat (r : Int) : Nat :=
  (max r 1).toNat

/-- The inner loop shared by every branch of `buildTasks`:
`for i := 0; i < rep; i++ { tasks = append(tasks, executionTask{id: taskID, ...}); taskID++ }`
starting from task id `startId`. -/
def mkRepeats (startId : Nat) (codeStr source : String) (rep : Nat) :
    List ExecutionTask :=
  (List.range rep).map (fun i =>
    { id := startId + i, code := codeStr, source := source,
      instanceNo := i + 1, totalInst := rep })

/-- The `-f` branch of `buildTasks`: read each file (a read failure aborts
the whole build naming the failing file), expand it into `rep` tasks, and
thread the task-id counter across files. -/
def buildFileTasks (readF : String → Except String String) (rep : Nat) :
    List String → Nat → Except String (List ExecutionTask)
  | [], _ => .ok []
  | f :: fs, tid =>
    match readF f with
    | .error e => .error ("failed to read file " ++ f ++ ": " ++ e)
    | .ok codeStr =>
      match buildFileTasks readF rep fs (tid + rep) with
      | .error e => .error e
      | .ok rest => .ok (mkRepeats tid codeStr f rep ++ rest)

/-- The command-level flag state and I/O oracles consumed by `runCommand`
and `buildTasks`: flag globals `runInstance`, `runTool`, `runCode`,
`runFiles`, `runRepeat`, plus `os.ReadFile` as a function, piped stdin as
`none` (terminal, no pipe) or `some` read outcome, and `openEditor`'s
outcome. -/
structure RunEnv where
  runInstance : String
  runTool : String
  runCode : String
  runFiles : List String
  runRepeat : Int
  readF : String → Except String String
  stdin : Option (Except String String)
  editor : Except String String

/-- The body of `buildTasks` with the repetition count `max(runRepeat, 1)`
abstracted: literal code takes precedence, then the file list, then piped
stdin (empty piped input yields zero tasks), then the editor (an empty
buffer yields zero tasks). -/
def buildTasksAux (env : RunEnv) (rep : Nat) :
    Except String (List ExecutionTask) :=
  if env.runCode ≠ "" then
    .ok (mkRepeats 1 env.runCode "<code>" rep)
  else if env.runFiles ≠ [] then
    buildFileTasks env.readF rep env.runFiles 1
  else
    match env.stdin with
    | some (.error e) => .error ("failed to read from stdin: " ++ e)
    | some (.ok s) =>
      .ok (if s ≠ "" then mkRepeats 1 s "<stdin>" rep else [])
    | none =>
      match env.editor with
      | .error e => .error e
      | .ok s =>
        .ok (if s ≠ "" then mkRepeats 1 s "<editor>" rep else [])

/-- Embeds Go `buildTasks`. -/
def buildTasks (env : RunEnv) : Except String (List ExecutionTask) :=
  buildTasksAux env (effRepeat env.runRepeat)

/-- Where `runCommand` hands off after validation and task building. -/
inductive DispatchResult where
  | single (t : ExecutionTask)
  | multi (ts : List ExecutionTask)
  deriving Repr, DecidableEq

/-- Embeds the validation and dispatch prefix of `runCommand`: the three
usage checks, the `buildTasks` call, the empty-task check and the choice of
the single-task fast path (`len(tasks) == 1 && runRepeat <= 1`) versus the
multi-task engine. -/
def runCommandDispatch (env : RunEnv) : Except String DispatchResult :=
  if env.runInstance ≠ "" ∧ env.runTool ≠ "code-interpreter-v1" then
    .error "cannot specify both --instance and --tool-name/--tool"
  else if env.runCode ≠ "" ∧ env.runFiles ≠ [] then
    .error "cannot use both -c and -f flags"
  else if env.runRepeat > 1 ∧ env.runInstance ≠ "" then
    .error "cannot use --repeat with --instance (existing instance doesn't support multiple executions)"
  else
    match buildTasks env with
    | .error e => .error e
    | .ok [] => .error "no code provided"
    | .ok [t] =>
      if env.runRepeat ≤ 1 then .ok (.single t) else .ok (.multi [t])
    | .ok ts => .ok (.multi ts)

theorem length_mkRepeats (s : Nat) (c src : String) (rep : Nat) :
    (mkRepeats s c src rep).length = rep := by
  simp [mkRepeats]

theorem map_id_mkRepeats (s : Nat) (c src : String) (rep : Nat) :
    (mkRepeats s c src rep).map (·.id) = List.range' s rep := by
  unfold mkRepeats
  rw [List.map_map]
  have hcomp : ((fun t : ExecutionTask => t.id) ∘ fun i =>
      ({ id := s + i, code := c, source := src, instanceNo := i + 1,
         totalInst := rep } : ExecutionTask)) = (s + ·) := rfl
  rw [hcomp, List.range_eq_range', List.map_add_range', Nat.add_zero]

theorem getElem?_mkRepeats (s : Nat) (c src : String) {j rep : Nat}
    (hj : j < rep) :
    (mkRepeats s c src rep)[j]? =
      some { id := s + j, code := c, source := src,
             instanceNo := j + 1, totalInst := rep } := by
  simp [mkRepeats, List.getElem?_range hj]

theorem mem_mkRepeats {t : ExecutionTask} {s : Nat} {c src : String}
    {rep : Nat} (h : t ∈ mkRepeats s c src rep) :
    ∃ i, i < rep ∧ t = { id := s + i, code := c, source := src,
                         instanceNo := i + 1, totalInst := rep } := by
  simp only [mkRepeats, List.mem_map, List.mem_range] at h
  obtain ⟨i, hi, rfl⟩ := h
  exact ⟨i, hi, rfl⟩

theorem buildFileTasks_map_id (readF : String → Except String String)
    (rep : Nat) :
    ∀ (fs : List String) (tid : Nat) (ts : List ExecutionTask),
      buildFileTasks readF rep fs tid = .ok ts →
      ts.map (·.id) = List.range' tid ts.length
  | [], _, ts, h => by
    cases h; rfl
  | f :: fs, tid, ts, h => by
    unfold buildFileTasks at h
    cases hr : readF f with
    | error e => rw [hr] at h; cases h
    | ok c =>
      rw [hr] at h
      cases hrec : buildFileTasks readF rep fs (tid + rep) with
      | error e => rw [hrec] at h; cases h
      | ok rest =>
        rw [hrec] at h
        cases h
        have ih := buildFileTasks_map_id readF rep fs (tid + rep) rest hrec
        rw [List.map_append, map_id_mkRepeats, ih,
          List.range'_append_1, List.length_append, length_mkRepeats,
          Nat.add_comm rest.length rep]

theorem buildFileTasks_length (readF : String → Except String String)
    (rep : Nat) :
    ∀ (fs : List String) (tid : Nat) (ts : List ExecutionTask),
      buildFileTasks readF rep fs tid = .ok ts →
      ts.length = fs.length * rep
  | [], _, ts, h => by cases h; simp
  | f :: fs, tid, ts, h => by
    unfold buildFileTasks at h
    cases hr : readF f with
    | error e => rw [hr] at h; cases h
    | ok c =>
      rw [hr] at h
      cases hrec : buildFileTasks readF rep fs (tid + rep) with
      | error e => rw [hrec] at h; cases h
      | ok rest =>
        rw [hrec] at h
        cases h
        have ih := buildFileTasks_length readF rep fs (tid + rep) rest hrec
        simp [length_mkRepeats, ih, Nat.succ_mul, Nat.add_comm]

theorem buildFileTasks_getElem? (readF : String → Except String String)
    {rep : Nat} (hrep : 0 < rep) :
    ∀ (fs : List String) (tid : Nat) (ts : List ExecutionTask),
      buildFileTasks readF rep fs tid = .ok ts →
      ∀ (j : Nat) (f : String), fs[j / rep]? = some f → j < ts.length →
        ∃ c, readF f = .ok c ∧
          ts[j]? = some { id := tid + j, code := c, source := f,
                          instanceNo := j % rep + 1, totalInst := rep }
  | [], _, ts, h => by
    cases h; intro j f hf hj; exact absurd hj (by simp)
  | f0 :: fs, tid, ts, h => by
    unfold buildFileTasks at h
    cases hr : readF f0 with
    | error e => rw [hr] at h; cases h
    | ok c0 =>
      rw [hr] at h
      cases hrec : buildFileTasks readF rep fs (tid + rep) with
      | error e => rw [hrec] at h; cases h
      | ok rest =>
        rw [hrec] at h
        cases h
        intro j f hf hj
        by_cases hlt : j < rep
        · have hdiv : j / rep = 0 := Nat.div_eq_of_lt hlt
          rw [hdiv] at hf
          simp only [List.getElem?_cons_zero, Option.some.injEq] at hf
          subst hf
          refine ⟨c0, hr, ?_⟩
          rw [List.getElem?_append_left (by rw [length_mkRepeats]; exact hlt),
            getElem?_mkRepeats _ _ _ hlt, Nat.mod_eq_of_lt hlt]
        · have hge : rep ≤ j := Nat.le_of_not_lt hlt
          obtain ⟨j', rfl⟩ : ∃ j', j = j' + rep :=
            ⟨j - rep, (Nat.sub_add_cancel hge).symm⟩
          have hdiv : (j' + rep) / rep = j' / rep + 1 :=
            Nat.add_div_right j' hrep
          rw [hdiv] at hf
          simp only [List.getElem?_cons_succ] at hf
          have hj' : j' < rest.length := by
            rw [List.length_append, length_mkRepeats] at hj
            omega
          obtain ⟨c, hc, hts⟩ :=
            buildFileTasks_getElem? readF hrep fs (tid + rep) rest hrec j' f hf hj'
          refine ⟨c, hc, ?_⟩
          rw [List.getElem?_append_right (by rw [length_mkRepeats]; omega)]
          rw [length_mkRepeats, Nat.add_sub_cancel, hts]
          have h1 : tid + rep + j' = tid + (j' + rep) := by omega
          have h2 : j' % rep = (j' + rep) % rep := (Nat.add_mod_right j' rep).symm
          rw [h1, h2]

theorem mem_buildFileTasks (readF : String → Except String String)
    (rep : Nat) :
    ∀ (fs : List String) (tid : Nat) (ts : List ExecutionTask),
      buildFileTasks readF rep fs tid = .ok ts →
      ∀ t ∈ ts, ∃ i, i < rep ∧ t.instanceNo = i + 1 ∧ t.totalInst = rep
  | [], _, ts, h => by cases h; intro t ht; cases ht
  | f :: fs, tid, ts, h => by
    unfold buildFileTasks at h
    cases hr : readF f with
    | error e => rw [hr] at h; cases h
    | ok c =>
      rw [hr] at h
      cases hrec : buildFileTasks readF rep fs (tid + rep) with
      | error e => rw [hrec] at h; cases h
      | ok rest =>
        rw [hrec] at h
        cases h
        intro t ht
        rcases List.mem_append.1 ht with hm | hm
        · obtain ⟨i, hi, rfl⟩ := mem_mkRepeats hm
          exact ⟨i, hi, rfl, rfl⟩
        · exact mem_buildFileTasks readF rep fs (tid + rep) rest hrec t hm

theorem effRepeat_coe {r : Nat} (h : 1 ≤ r) : effRepeat (r : Int) = r := by
  unfold effRepeat
  rw [max_eq_left (by exact_mod_cast h)]
  exact Int.toNat_natCast r

theorem effRepeat_of_le_one {r : Int} (h : r ≤ 1) : effRepeat r = 1 := by
  unfold effRepeat
  rw [max_eq_right h]
  rfl

theorem buildTasksAux_map_id (env : RunEnv) (rep : Nat)
    (ts : List ExecutionTask) (h : buildTasksAux env rep = .ok ts) :
    ts.map (·.id) = List.range' 1 ts.length := by
  unfold buildTasksAux at h
  by_cases hc : env.runCode ≠ ""
  · rw [if_pos hc] at h
    cases h
    rw [map_id_mkRepeats, length_mkRepeats]
  · rw [if_neg hc] at h
    by_cases hf : env.runFiles ≠ []
    · rw [if_pos hf] at h
      exact buildFileTasks_map_id env.readF rep env.runFiles 1 ts h
    · rw [if_neg hf] at h
      cases hs : env.stdin with
      | some se =>
        rw [hs] at h
        cases se with
        | error e => cases h
        | ok s =>
          simp only at h
          cases h
          by_cases hne : s ≠ "" <;>
            simp [hne, map_id_mkRepeats, length_mkRepeats]
      | none =>
        rw [hs] at h
        cases he : env.editor with
        | error e => rw [he] at h; cases h
        | ok s =>
          rw [he] at h
          simp only at h
          cases h
          by_cases hne : s ≠ "" <;>
            simp [hne, map_id_mkRepeats, length_mkRepeats]

/-- C8: every task list produced by `buildTasks` carries ids
`1, 2, …, len` (one strictly increasing gap-free sequence starting at 1,
for every input source); and in the file-list branch with `k` files and
repeat `r ≥ 1`, the build yields `k*r` tasks laid out file-major — the task
at 0-based position `j` has id `j+1`, comes from file `j/r` with that
file's contents, and carries `instanceNo = j % r + 1` and `totalInst = r`. -/
theorem buildTasks_id_layout (env : RunEnv) (ts : List ExecutionTask)
    (hok : buildTasks env = .ok ts) :
    ts.map (·.id) = List.range' 1 ts.length ∧
    (∀ r : Nat, 1 ≤ r → env.runRepeat = (r : Int) → env.runCode = "" →
      env.runFiles ≠ [] →
      ts.length = env.runFiles.length * r ∧
      ∀ (j : Nat) (f : String), env.runFiles[j / r]? = some f →
        j < ts.length →
        ∃ c, env.readF f = .ok c ∧
          ts[j]? = some { id := j + 1, code := c, source := f,
                          instanceNo := j % r + 1, totalInst := r }) := by
  constructor
  · exact buildTasksAux_map_id env (effRepeat env.runRepeat) ts hok
  · intro r hr hrep hc hf
    unfold buildTasks at hok
    rw [hrep, effRepeat_coe hr] at hok
    unfold buildTasksAux at hok
    rw [if_neg (by simp [hc]), if_pos hf] at hok
    refine ⟨buildFileTasks_length env.readF r env.runFiles 1 ts hok, ?_⟩
    intro j f hjf hj
    obtain ⟨c, hcf, hts⟩ :=
      buildFileTasks_getElem? env.readF (Nat.lt_of_lt_of_le Nat.zero_lt_one hr)
        env.runFiles 1 ts hok j f hjf hj
    refine ⟨c, hcf, ?_⟩
    rw [hts, Nat.add_comm 1 j]

/-- Witness for `buildTasks_id_layout`: two files with repeat 2 yield four
tasks with ids 1..4, file-major. -/
theorem buildTasks_id_layout_witness :
    buildTasks ⟨"", "code-interpreter-v1", "", ["a", "b"], 2,
        fun f => .ok ("code:" ++ f), none, .ok ""⟩ =
      .ok [⟨1, "code:a", "a", 1, 2⟩, ⟨2, "code:a", "a", 2, 2⟩,
           ⟨3, "code:b", "b", 1, 2⟩, ⟨4, "code:b", "b", 2, 2⟩] ∧
    ([⟨1, "code:a", "a", 1, 2⟩, ⟨2, "code:a", "a", 2, 2⟩,
      ⟨3, "code:b", "b", 1, 2⟩, ⟨4, "code:b", "b", 2, 2⟩]
        : List ExecutionTask).map (·.id) =
      List.range' 1 ([⟨1, "code:a", "a", 1, 2⟩, ⟨2, "code:a", "a", 2, 2⟩,
        ⟨3, "code:b", "b", 1, 2⟩, ⟨4, "code:b", "b", 2, 2⟩]
          : List ExecutionTask).length := by
  have hok : buildTasks ⟨"", "code-interpreter-v1", "", ["a", "b"], 2,
      fun f => .ok ("code:" ++ f), none, .ok ""⟩ =
      .ok [⟨1, "code:a", "a", 1, 2⟩, ⟨2, "code:a", "a", 2, 2⟩,
           ⟨3, "code:b", "b", 1, 2⟩, ⟨4, "code:b", "b", 2, 2⟩] := by
    rfl
  exact ⟨hok, (buildTasks_id_layout _ _ hok).1⟩

theorem mem_buildTasksAux (env : RunEnv) (rep : Nat)
    (ts : List ExecutionTask) (h : buildTasksAux env rep = .ok ts) :
    ∀ t ∈ ts, ∃ i, i < rep ∧ t.instanceNo = i + 1 ∧ t.totalInst = rep := by
  unfold buildTasksAux at h
  by_cases hc : env.runCode ≠ ""
  · rw [if_pos hc] at h
    cases h
    intro t ht
    obtain ⟨i, hi, rfl⟩ := mem_mkRepeats ht
    exact ⟨i, hi, rfl, rfl⟩
  · rw [if_neg hc] at h
    by_cases hf : env.runFiles ≠ []
    · rw [if_pos hf] at h
      exact mem_buildFileTasks env.readF rep env.runFiles 1 ts h
    · rw [if_neg hf] at h
      have hmk : ∀ (s src : String),
          (if s ≠ "" then mkRepeats 1 s src rep else []) = ts →
          ∀ t ∈ ts, ∃ i, i < rep ∧ t.instanceNo = i + 1 ∧ t.totalInst = rep := by
        intro s src hts t ht
        by_cases hne : s ≠ ""
        · rw [if_pos hne] at hts
          obtain ⟨i, hi, rfl⟩ := mem_mkRepeats (hts ▸ ht)
          exact ⟨i, hi, rfl, rfl⟩
        · rw [if_neg hne] at hts
          rw [← hts] at ht
          cases ht
      cases hs : env.stdin with
      | some se =>
        rw [hs] at h
        cases se with
        | error e => cases h
        | ok s => simp only at h; exact hmk s "<stdin>" (by injection h)
      | none =>
        rw [hs] at h
        cases he : env.editor with
        | error e => rw [he] at h; cases h
        | ok s => rw [he] at h; simp only at h; exact hmk s "<editor>" (by injection h)

/-- C10: `buildTasks` is total in the repeat count — for every repeat value
`r ≤ 1` (including 0 and negative values) it behaves exactly as with
repeat 1, and every produced task carries `instanceNo = 1` and
`totalInst = 1` (in particular it never yields zero tasks solely because of
a non-positive repeat count). -/
theorem buildTasks_nonpositive_repeat (env : RunEnv)
    (h : env.runRepeat ≤ 1) :
    buildTasks env = buildTasks { env with runRepeat := 1 } ∧
    ∀ ts, buildTasks env = .ok ts →
      ∀ t ∈ ts, t.instanceNo = 1 ∧ t.totalInst = 1 := by
  have heff : effRepeat env.runRepeat = 1 := effRepeat_of_le_one h
  constructor
  · show buildTasksAux env (effRepeat env.runRepeat) = _
    rw [heff]
    rfl
  · intro ts hok t ht
    have := mem_buildTasksAux env (effRepeat env.runRepeat) ts hok t ht
    rw [heff] at this
    obtain ⟨i, hi, h1, h2⟩ := this
    interval_cases i
    exact ⟨h1, h2⟩

/-- Witness for `buildTasks_nonpositive_repeat` at repeat `-3` with a
literal code string: same one task as with repeat 1. -/
theorem buildTasks_nonpositive_repeat_witness :
    buildTasks ⟨"", "code-interpreter-v1", "print(1)", [], -3,
        fun _ => .error "no file", none, .ok ""⟩ =
      buildTasks ⟨"", "code-interpreter-v1", "print(1)", [], 1,
        fun _ => .error "no file", none, .ok ""⟩ ∧
    (⟨1, "print(1)", "<code>", 1, 1⟩ : ExecutionTask).instanceNo = 1 := by
  have h := buildTasks_nonpositive_repeat
    ⟨"", "code-interpreter-v1", "print(1)", [], -3,
      fun _ => .error "no file", none, .ok ""⟩ (by decide)
  refine ⟨h.1, ?_⟩
  exact (h.2 [⟨1, "print(1)", "<code>", 1, 1⟩] rfl _ (by simp)).1

/-- C7: supplying both a literal code string and a non-empty file list makes
the command's task-building phase return a usage error: `runCommandDispatch`
yields an error (the `-c`/`-f` conflict message, unless the even earlier
`--instance`/`--tool` conflict fires) and never reaches a runner, so zero
tasks are built and no task executes. -/
theorem both_code_and_files_usage_error (env : RunEnv)
    (hc : env.runCode ≠ "") (hf : env.runFiles ≠ []) :
    (runCommandDispatch env = .error "cannot use both -c and -f flags" ∨
     runCommandDispatch env =
       .error "cannot specify both --instance and --tool-name/--tool") ∧
    ∀ d, runCommandDispatch env ≠ .ok d := by
  have hmain : runCommandDispatch env = .error "cannot use both -c and -f flags" ∨
      runCommandDispatch env =
        .error "cannot specify both --instance and --tool-name/--tool" := by
    unfold runCommandDispatch
    by_cases h1 : env.runInstance ≠ "" ∧ env.runTool ≠ "code-interpreter-v1"
    · rw [if_pos h1]
      exact Or.inr rfl
    · rw [if_neg h1, if_pos ⟨hc, hf⟩]
      exact Or.inl rfl
  refine ⟨hmain, ?_⟩
  intro d hok
  rcases hmain with h | h <;> rw [h] at hok <;> cases hok

/-- Witness for `both_code_and_files_usage_error` with `-c print(1)` and
`-f a.py` both set: the `-c`/`-f` usage error is returned. -/
theorem both_code_and_files_usage_error_witness :
    (runCommandDispatch ⟨"", "code-interpreter-v1", "print(1)", ["a.py"], 1,
        fun _ => .ok "", none, .ok ""⟩ =
      .error "cannot use both -c and -f flags" ∨
     runCommandDispatch ⟨"", "code-interpreter-v1", "print(1)", ["a.py"], 1,
        fun _ => .ok "", none, .ok ""⟩ =
      .error "cannot specify both --instance and --tool-name/--tool") ∧
    ∀ d, runCommandDispatch ⟨"", "code-interpreter-v1", "print(1)", ["a.py"], 1,
        fun _ => .ok "", none, .ok ""⟩ ≠ .ok d :=
  both_code_and_files_usage_error
    ⟨"", "code-interpreter-v1", "print(1)", ["a.py"], 1,
      fun _ => .ok "", none, .ok ""⟩
    (by decide) (by decide)

/-- Outcome of one `sandbox.Code.RunCode` call: the possibly-nil pointer to
the structured execution, the possibly-nil error, and the measured
execution duration. -/
structure RunOut where
  result : Option Execution
  err : Option String
  dur : Nat

/-- Environment of `runTasksSequential`: whether `--instance` was given
(`runInstance != ""`), the outcomes of `ConnectSandboxWithCache` and of
`code.Create` (the latter carrying the measured creation duration on
success), and the outcome of the `RunCode` call for the task at each
position. -/
structure SeqEnv where
  useInstance : Bool
  connectResult : Except String Unit
  createResult : Except String Nat
  exec : Nat → RunOut

/-- Go `taskResult{task: task, err: fmt.Errorf(...)}`: all other fields keep
their zero values. -/
def errResult (msg : String) (t : ExecutionTask) : TaskResult :=
  { task := t, result := none, err := some msg,
    createDuration := 0, execDuration := 0, totalDuration := 0 }

/-- The loop body of `runTasksSequential`: record the execution duration as
the task's total, then — for the first task only, when a sandbox was
actually created (`i == 0 && sandboxCreateDuration > 0`) — add the one-time
creation duration. -/
def seqTaskResult (exec : Nat → RunOut) (createDur i : Nat)
    (t : ExecutionTask) : TaskResult :=
  let o := exec i
  let r : TaskResult :=
    { task := t, result := o.result, err := o.err,
      createDuration := 0, execDuration := o.dur, totalDuration := o.dur }
  if i = 0 ∧ 0 < createDur then
    { r with createDuration := createDur, totalDuration := createDur + o.dur }
  else r

/-- Embeds `runTasksSequential`.  The second component is the trace of task
ids whose code was actually submitted to `RunCode` (it is empty exactly when
the up-front sandbox acquisition failed and the function returned before its
loop). -/
def runTasksSequential (env : SeqEnv) (tasks : List ExecutionTask) :
    List TaskResult × List Nat :=
  if env.useInstance then
    match env.connectResult with
    | .error e =>
      (tasks.map (errResult ("failed to connect to instance: " ++ e)), [])
    | .ok _ =>
      (tasks.mapIdx (fun i t => seqTaskResult env.exec 0 i t),
       tasks.map (·.id))
  else
    match env.createResult with
    | .error e =>
      (tasks.map (errResult ("failed to create sandbox: " ++ e)), [])
    | .ok d =>
      (tasks.mapIdx (fun i t => seqTaskResult env.exec d i t),
       tasks.map (·.id))

/-- Per-worker oracles of `runTasksParallel`: the outcome of the worker's
own `code.Create` (with its measured creation duration), the outcome of its
`RunCode` call, and the two `time.Since(taskStart)` reads (one in the
create-failure arm, one after execution). -/
structure ParEnv where
  create : Nat → Except String Nat
  exec : Nat → RunOut
  elapsedFail : Nat → Nat
  elapsedDone : Nat → Nat

/-- The body of the worker goroutine `go func(idx, t)` in
`runTasksParallel`: create a dedicated sandbox (a failure yields a
`taskResult` holding only the creation error and the elapsed time), else run
the code and record all three durations. -/
def parTaskResult (env : ParEnv) (idx : Nat) (t : ExecutionTask) :
    TaskResult :=
  match env.create idx with
  | .error e =>
    { task := t, result := none,
      err := some ("failed to create sandbox: " ++ e),
      createDuration := 0, execDuration := 0,
      totalDuration := env.elapsedFail idx }
  | .ok cd =>
    let o := env.exec idx
    { task := t, result := o.result, err := o.err,
      createDuration := cd, execDuration := o.dur,
      totalDuration := env.elapsedDone idx }

/-- Embeds the result-array phase of `runTasksParallel` as a function of the
workers' completion order.  `results := make([]taskResult, len(tasks))`
starts as an all-unwritten array (`none` marks a slot not yet written), and
each completing worker `idx` performs `results[idx] = r` under `resultsMu`,
where `r` is computed by `parTaskResult` from the worker's own oracles.
`order` lists the worker indices in completion order; `wg.Wait()`
corresponds to `order` containing every index.  The admission semaphore
constrains only which completion orders can occur in real time, never which
slot a worker writes, so the function is defined for every order. -/
def runTasksParallel (env : ParEnv) (tasks : List ExecutionTask)
    (order : List Nat) : List (Option TaskResult) :=
  order.foldl
    (fun acc idx => acc.set idx ((tasks[idx]?).map (parTaskResult env idx)))
    (List.replicate tasks.length none)

theorem length_foldl_set (v : Nat → α) :
    ∀ (order : List Nat) (acc : List α),
      (order.foldl (fun a i => a.set i (v i)) acc).length = acc.length
  | [], _ => rfl
  | i :: rest, acc => by
    rw [List.foldl_cons, length_foldl_set v rest, List.length_set]

theorem getElem?_foldl_set (v : Nat → α) :
    ∀ (order : List Nat) (acc : List α) (j : Nat),
      (order.foldl (fun a i => a.set i (v i)) acc)[j]? =
        if j ∈ order ∧ j < acc.length then some (v j) else acc[j]?
  | [], acc, j => by simp
  | i :: rest, acc, j => by
    rw [List.foldl_cons, getElem?_foldl_set v rest (acc.set i (v i)) j,
      List.length_set]
    by_cases hlen : j < acc.length
    · by_cases hmem : j ∈ rest
      · rw [if_pos ⟨hmem, hlen⟩, if_pos ⟨List.mem_cons_of_mem i hmem, hlen⟩]
      · rw [if_neg (fun h => hmem h.1)]
        by_cases hij : i = j
        · subst hij
          rw [List.getElem?_set_self hlen,
            if_pos ⟨List.mem_cons_self i rest, hlen⟩]
        · rw [List.getElem?_set_ne hij, if_neg]
          rintro ⟨hj, -⟩
          rcases List.mem_cons.1 hj with h | h
          · exact hij h.symm
          · exact hmem h
    · rw [if_neg (fun h => hlen h.2), if_neg (fun h => hlen h.2),
        List.getElem?_eq_none (Nat.le_of_not_lt hlen),
        List.getElem?_eq_none
          (by rw [List.length_set]; exact Nat.le_of_not_lt hlen)]

theorem errResult_task (msg : String) (t : ExecutionTask) :
    (errResult msg t).task = t := rfl

theorem seqTaskResult_task (exec : Nat → RunOut) (d i : Nat)
    (t : ExecutionTask) : (seqTaskResult exec d i t).task = t := by
  unfold seqTaskResult
  split <;> rfl

theorem seqTaskResult_fields (exec : Nat → RunOut) (d i : Nat)
    (t : ExecutionTask) :
    (seqTaskResult exec d i t).execDuration = (exec i).dur ∧
    (i = 0 → (seqTaskResult exec d i t).createDuration = d ∧
      (seqTaskResult exec d i t).totalDuration = d + (exec i).dur) ∧
    (0 < i → (seqTaskResult exec d i t).createDuration = 0 ∧
      (seqTaskResult exec d i t).totalDuration = (exec i).dur) := by
  unfold seqTaskResult
  by_cases h : i = 0 ∧ 0 < d
  · rw [if_pos h]
    exact ⟨rfl, fun _ => ⟨rfl, rfl⟩,
      fun hlt => absurd (h.1 ▸ hlt) (Nat.lt_irrefl 0)⟩
  · rw [if_neg h]
    refine ⟨rfl, ?_, fun _ => ⟨rfl, rfl⟩⟩
    intro hi0
    subst hi0
    have hd : d = 0 := by
      by_contra hd
      exact h ⟨rfl, Nat.pos_of_ne_zero hd⟩
    subst hd
    exact ⟨rfl, (Nat.zero_add _).symm⟩

/-- C2: both `runTasksSequential` and `runTasksParallel` return a results
array whose length equals the task list's, and whose entry at index `i` is
computed from the task at index `i` of the input list — in the parallel case
the array is the same for every completion order (a permutation of the
worker indices), hence under every concurrency setting. -/
theorem results_positionally_aligned :
    (∀ (env : SeqEnv) (tasks : List ExecutionTask),
      (runTasksSequential env tasks).1.length = tasks.length ∧
      ∀ (i : Nat) (hi : i < (runTasksSequential env tasks).1.length)
        (hj : i < tasks.length),
        ((runTasksSequential env tasks).1.get ⟨i, hi⟩).task =
          tasks.get ⟨i, hj⟩) ∧
    (∀ (env : ParEnv) (tasks : List ExecutionTask) (order : List Nat),
      order.Perm (List.range tasks.length) →
      (runTasksParallel env tasks order).length = tasks.length ∧
      ∀ (i : Nat) (hi : i < (runTasksParallel env tasks order).length)
        (hj : i < tasks.length),
        (runTasksParallel env tasks order).get ⟨i, hi⟩ =
          some (parTaskResult env i (tasks.get ⟨i, hj⟩))) := by
  constructor
  · intro env tasks
    unfold runTasksSequential
    cases hu : env.useInstance
    · simp only [Bool.false_eq_true, if_false]
      cases hc : env.createResult with
      | error e =>
        refine ⟨List.length_map _ _, ?_⟩
        intro i hi hj
        simp [List.get_eq_getElem, List.getElem_map, errResult_task]
      | ok d =>
        refine ⟨List.length_mapIdx, ?_⟩
        intro i hi hj
        simp [List.get_eq_getElem, List.getElem_mapIdx, seqTaskResult_task]
    · simp only [if_true]
      cases hc : env.connectResult with
      | error e =>
        refine ⟨List.length_map _ _, ?_⟩
        intro i hi hj
        simp [List.get_eq_getElem, List.getElem_map, errResult_task]
      | ok u =>
        refine ⟨List.length_mapIdx, ?_⟩
        intro i hi hj
        simp [List.get_eq_getElem, List.getElem_mapIdx, seqTaskResult_task]
  · intro env tasks order hperm
    constructor
    · unfold runTasksParallel
      rw [length_foldl_set, List.length_replicate]
    · intro i hi hj
      have hmem : i ∈ order := hperm.mem_iff.2 (List.mem_range.2 hj)
      have h1 := getElem?_foldl_set
        (fun idx => (tasks[idx]?).map (parTaskResult env idx)) order
        (List.replicate tasks.length (none : Option TaskResult)) i
      rw [if_pos ⟨hmem, by simpa using hj⟩,
        List.getElem?_eq_getElem hj] at h1
      have h2 : (runTasksParallel env tasks order)[i]? =
          some (some (parTaskResult env i (tasks.get ⟨i, hj⟩))) := by
        unfold runTasksParallel
        rw [h1]
        simp [List.get_eq_getElem]
      rw [List.getElem?_eq_getElem hi] at h2
      simpa [List.get_eq_getElem] using Option.some.inj h2

/-- Witness for `results_positionally_aligned`: two tasks completing in
reversed order still land in their own slots. -/
theorem results_positionally_aligned_witness :
    ([1, 0] : List Nat).Perm
      (List.range ([⟨1, "a", "<code>", 1, 2⟩, ⟨2, "a", "<code>", 2, 2⟩]
        : List ExecutionTask).length) ∧
    (runTasksParallel ⟨fun _ => .ok 1, fun _ => ⟨none, none, 2⟩,
        fun _ => 0, fun _ => 3⟩
      [⟨1, "a", "<code>", 1, 2⟩, ⟨2, "a", "<code>", 2, 2⟩] [1, 0]).get
        ⟨0, by decide⟩ =
      some (parTaskResult ⟨fun _ => .ok 1, fun _ => ⟨none, none, 2⟩,
          fun _ => 0, fun _ => 3⟩ 0
        (([⟨1, "a", "<code>", 1, 2⟩, ⟨2, "a", "<code>", 2, 2⟩]
          : List ExecutionTask).get ⟨0, by decide⟩)) := by
  have hperm : ([1, 0] : List Nat).Perm
      (List.range ([⟨1, "a", "<code>", 1, 2⟩, ⟨2, "a", "<code>", 2, 2⟩]
        : List ExecutionTask).length) := by
    simpa using List.Perm.swap 0 1 ([] : List Nat)
  refine ⟨hperm, ?_⟩
  exact (results_positionally_aligned.2 _ _ _ hperm).2 0 (by decide) (by decide)

/-- C5: in sequential mode, when the one up-front sandbox creation (or the
connection to an existing instance) fails, every task in the batch receives
a result carrying that same error with zero creation/execution/total
durations, and the trace of executed tasks is empty — no task's code runs. -/
theorem seq_create_failure_fails_batch (env : SeqEnv)
    (tasks : List ExecutionTask) (e : String) :
    (env.useInstance = false → env.createResult = .error e →
      runTasksSequential env tasks =
        (tasks.map (errResult ("failed to create sandbox: " ++ e)), [])) ∧
    (env.useInstance = true → env.connectResult = .error e →
      runTasksSequential env tasks =
        (tasks.map (errResult ("failed to connect to instance: " ++ e)), [])) ∧
    (∀ (msg : String) (t : ExecutionTask),
      (errResult msg t).err = some msg ∧ (errResult msg t).result = none ∧
      (errResult msg t).createDuration = 0 ∧
      (errResult msg t).execDuration = 0 ∧
      (errResult msg t).totalDuration = 0) := by
  refine ⟨?_, ?_, fun msg t => ⟨rfl, rfl, rfl, rfl, rfl⟩⟩
  · intro hu hc
    unfold runTasksSequential
    rw [hu, hc]
    simp
  · intro hu hc
    unfold runTasksSequential
    rw [hu, hc]
    simp

/-- Witness for `seq_create_failure_fails_batch`: a failing `code.Create`
turns a two-task batch into two identical creation-error results and an
empty execution trace. -/
theorem seq_create_failure_fails_batch_witness :
    (⟨false, .ok (), .error "boom", fun _ => ⟨none, none, 7⟩⟩
      : SeqEnv).useInstance = false ∧
    runTasksSequential ⟨false, .ok (), .error "boom", fun _ => ⟨none, none, 7⟩⟩
        [⟨1, "c", "<code>", 1, 2⟩, ⟨2, "c", "<code>", 2, 2⟩] =
      ([errResult "failed to create sandbox: boom" ⟨1, "c", "<code>", 1, 2⟩,
        errResult "failed to create sandbox: boom" ⟨2, "c", "<code>", 2, 2⟩],
       []) := by
  refine ⟨rfl, ?_⟩
  exact (seq_create_failure_fails_batch
    ⟨false, .ok (), .error "boom", fun _ => ⟨none, none, 7⟩⟩
    [⟨1, "c", "<code>", 1, 2⟩, ⟨2, "c", "<code>", 2, 2⟩] "boom").1 rfl rfl

/-- C9: in sequential mode with a freshly created sandbox, the measured
creation duration goes entirely to the first result (`createDuration = d`,
`totalDuration = d + execDuration`), every later result has zero
`createDuration` and `totalDuration = execDuration`; when an existing
instance is reused all results, the first included, have zero
`createDuration` and `totalDuration = execDuration`. -/
theorem seq_creation_attribution (env : SeqEnv)
    (tasks : List ExecutionTask) :
    (∀ d : Nat, env.useInstance = false → env.createResult = .ok d →
      ∀ (i : Nat) (hi : i < (runTasksSequential env tasks).1.length),
        (i = 0 →
          ((runTasksSequential env tasks).1.get ⟨i, hi⟩).createDuration = d ∧
          ((runTasksSequential env tasks).1.get ⟨i, hi⟩).totalDuration =
            d + ((runTasksSequential env tasks).1.get ⟨i, hi⟩).execDuration) ∧
        (0 < i →
          ((runTasksSequential env tasks).1.get ⟨i, hi⟩).createDuration = 0 ∧
          ((runTasksSequential env tasks).1.get ⟨i, hi⟩).totalDuration =
            ((runTasksSequential env tasks).1.get ⟨i, hi⟩).execDuration)) ∧
    (∀ u : Unit, env.useInstance = true → env.connectResult = .ok u →
      ∀ (i : Nat) (hi : i < (runTasksSequential env tasks).1.length),
        ((runTasksSequential env tasks).1.get ⟨i, hi⟩).createDuration = 0 ∧
        ((runTasksSequential env tasks).1.get ⟨i, hi⟩).totalDuration =
          ((runTasksSequential env tasks).1.get ⟨i, hi⟩).execDuration) := by
  constructor
  · intro d hu hc i hi
    have hres : (runTasksSequential env tasks).1 =
        tasks.mapIdx (fun i t => seqTaskResult env.exec d i t) := by
      unfold runTasksSequential
      rw [hu, hc]
      simp
    have hj : i < tasks.length := by
      rw [hres, List.length_mapIdx] at hi
      exact hi
    have hget : (runTasksSequential env tasks).1.get ⟨i, hi⟩ =
        seqTaskResult env.exec d i (tasks.get ⟨i, hj⟩) := by
      simp only [List.get_eq_getElem]
      rw [List.getElem_of_eq hres, List.getElem_mapIdx]
    obtain ⟨hexec, h0, hpos⟩ := seqTaskResult_fields env.exec d i
      (tasks.get ⟨i, hj⟩)
    rw [hget, hexec]
    exact ⟨fun hi0 => (h0 hi0).imp id (fun h => by rw [h]),
      fun hip => (hpos hip).imp id (fun h => by rw [h])⟩
  · intro u hu hc i hi
    have hres : (runTasksSequential env tasks).1 =
        tasks.mapIdx (fun i t => seqTaskResult env.exec 0 i t) := by
      unfold runTasksSequential
      rw [hu, hc]
      simp
    have hj : i < tasks.length := by
      rw [hres, List.length_mapIdx] at hi
      exact hi
    have hget : (runTasksSequential env tasks).1.get ⟨i, hi⟩ =
        seqTaskResult env.exec 0 i (tasks.get ⟨i, hj⟩) := by
      simp only [List.get_eq_getElem]
      rw [List.getElem_of_eq hres, List.getElem_mapIdx]
    obtain ⟨hexec, h0, hpos⟩ := seqTaskResult_fields env.exec 0 i
      (tasks.get ⟨i, hj⟩)
    rw [hget, hexec]
    rcases Nat.eq_zero_or_pos i with hi0 | hip
    · obtain ⟨h1, h2⟩ := h0 hi0
      exact ⟨h1, by rw [h2, Nat.zero_add]⟩
    · exact (hpos hip).imp id (fun h => by rw [h])

/-- Witness for `seq_creation_attribution`: creation measured at 10 with two
tasks — the first result absorbs all 10 and its total is `10 + 5`. -/
theorem seq_creation_attribution_witness :
    (⟨false, .ok (), .ok 10, fun _ => ⟨none, none, 5⟩⟩
      : SeqEnv).useInstance = false ∧
    ((runTasksSequential ⟨false, .ok (), .ok 10, fun _ => ⟨none, none, 5⟩⟩
        [⟨1, "c", "<code>", 1, 2⟩, ⟨2, "c", "<code>", 2, 2⟩]).1.get
        ⟨0, by decide⟩).createDuration = 10 := by
  refine ⟨rfl, ?_⟩
  have h := (seq_creation_attribution
    ⟨false, .ok (), .ok 10, fun _ => ⟨none, none, 5⟩⟩
    [⟨1, "c", "<code>", 1, 2⟩, ⟨2, "c", "<code>", 2, 2⟩]).1 10 rfl rfl 0
    (by decide)
  exact (h.1 rfl).1

/-- The effective parallelism limit computed at the top of
`runTasksParallel`: `maxParallel := runMaxParallel; if maxParallel <= 0 ||
maxParallel > len(tasks) { maxParallel = len(tasks) }` — the semaphore
channel `sem` is then created with this capacity (`--max-parallel` is a Go
`int`). -/
def effLimit (limit : Int) (n : Nat) : Nat :=
  if limit ≤ 0 ∨ (n : Int) < limit then n else limit.toNat

/-- Phase of one parallel worker with respect to the admission semaphore:
before `sem <- struct{}{}` (`pending`), holding a token through sandbox
creation and code execution (`gated`), after the deferred `<-sem` release
(`done`). -/
inductive TStage where
  | pending
  | gated
  | done
  deriving Repr, DecidableEq

/-- Whether a worker holds a semaphore token, i.e. is inside
acquiring-sandbox ∪ running. -/
def inGate : TStage → Bool
  | .gated => true
  | _ => false

/-- Number of workers currently inside the admission gate. -/
def gateCount (s : List TStage) : Nat :=
  s.countP inGate

/-- One scheduler step of `runTasksParallel`'s semaphore discipline with
capacity `cap`: a pending worker can pass `sem <- struct{}{}` only while
fewer than `cap` tokens are held (a buffered channel of capacity `cap`
blocks otherwise), and a worker holding a token can finish its body and
release via the deferred `<-sem`. -/
inductive ParStep (cap : Nat) : List TStage → List TStage → Prop
  | enter (s : List TStage) (i : Nat) (hp : s[i]? = some .pending)
      (hgate : gateCount s < cap) : ParStep cap s (s.set i .gated)
  | leave (s : List TStage) (i : Nat) (hg : s[i]? = some .gated) :
      ParStep cap s (s.set i .done)

/-- States reachable by the parallel runner's semaphore discipline from the
spawn point (`n` workers, none yet admitted). -/
def ParReachable (cap n : Nat) (s : List TStage) : Prop :=
  Relation.ReflTransGen (ParStep cap) (List.replicate n .pending) s

theorem countP_set_add (p : α → Bool) :
    ∀ (s : List α) (i : Nat) (a b : α), s[i]? = some a →
      (s.set i b).countP p + (if p a then 1 else 0) =
        s.countP p + (if p b then 1 else 0)
  | [], i, a, b, h => by cases h
  | x :: xs, 0, a, b, h => by
    simp only [List.getElem?_cons_zero, Option.some.injEq] at h
    subst h
    simp only [List.set_cons_zero, List.countP_cons]
    omega
  | x :: xs, i + 1, a, b, h => by
    simp only [List.getElem?_cons_succ] at h
    simp only [List.set_cons_succ, List.countP_cons]
    have := countP_set_add p xs i a b h
    omega

theorem gateCount_replicate_pending (n : Nat) :
    gateCount (List.replicate n .pending) = 0 := by
  unfold gateCount
  induction n with
  | zero => rfl
  | succ n ih => simp [List.replicate, List.countP_cons, inGate, ih]

theorem parReachable_invariant {cap n : Nat} {s : List TStage}
    (h : ParReachable cap n s) : gateCount s ≤ cap ∧ s.length = n := by
  induction h with
  | refl =>
    rw [gateCount_replicate_pending, List.length_replicate]
    exact ⟨Nat.zero_le cap, rfl⟩
  | tail hpre hstep ih =>
    rename_i b c
    cases hstep with
    | enter i hp hgate =>
      have key := countP_set_add inGate b i .pending .gated hp
      simp [inGate] at key
      refine ⟨?_, by rw [List.length_set]; exact ih.2⟩
      unfold gateCount at hgate ⊢
      omega
    | leave i hg =>
      have key := countP_set_add inGate b i .gated .done hg
      simp [inGate] at key
      refine ⟨?_, by rw [List.length_set]; exact ih.2⟩
      have hle := ih.1
      unfold gateCount at hle ⊢
      omega

theorem effLimit_pos {limit : Int} (n : Nat) (h : 0 < limit) :
    effLimit limit n = min limit.toNat n := by
  unfold effLimit
  rcases lt_or_le (n : Int) limit with hlt | hle
  · rw [if_pos (Or.inr hlt)]
    omega
  · rw [if_neg (by omega)]
    omega

theorem effLimit_nonpos {limit : Int} (n : Nat) (h : limit ≤ 0) :
    effLimit limit n = n := by
  unfold effLimit
  rw [if_pos (Or.inl h)]

/-- C4: with `n` tasks and configured limit `L`, every state reachable under
the admission-gate discipline of `runTasksParallel` has at most
`effLimit L n` workers inside the gate — that is at most `min(L, n)` workers
when `L > 0` and at most `n` workers when `L ≤ 0`; and (by the `enter` rule
of `ParStep`) a worker starts sandbox acquisition only while strictly fewer
than that limit are inside. -/
theorem gate_occupancy_bounded (limit : Int) (n : Nat) (s : List TStage)
    (h : ParReachable (effLimit limit n) n s) :
    gateCount s ≤ effLimit limit n ∧
    (0 < limit → gateCount s ≤ min limit.toNat n) ∧
    (limit ≤ 0 → gateCount s ≤ n) := by
  have hinv := (parReachable_invariant h).1
  refine ⟨hinv, ?_, ?_⟩
  · intro hpos
    rw [effLimit_pos n hpos] at hinv
    exact hinv
  · intro hneg
    rw [effLimit_nonpos n hneg] at hinv
    exact hinv

/-- Witness for `gate_occupancy_bounded`: two tasks with configured limit 3,
one worker admitted — occupancy 1 stays within `effLimit 3 2 = 2`. -/
theorem gate_occupancy_bounded_witness :
    ParReachable (effLimit 3 2) 2 [TStage.gated, TStage.pending] ∧
    gateCount [TStage.gated, TStage.pending] ≤ effLimit 3 2 := by
  have hstep : ParStep (effLimit 3 2)
      [TStage.pending, TStage.pending] [TStage.gated, TStage.pending] :=
    ParStep.enter [TStage.pending, TStage.pending] 0 rfl (by decide)
  have hreach : ParReachable (effLimit 3 2) 2
      [TStage.gated, TStage.pending] :=
    Relation.ReflTransGen.single hstep
  exact ⟨hreach, (gate_occupancy_bounded 3 2 _ hreach).1⟩

/-- Embeds the control flow of `runSingleTask` as far as the process exit
code is concerned.  The function returns a non-nil Go error only when a
transport step fails (`ConnectSandboxWithCache`, `code.Create`, or the
`RunCode` call error); when the call succeeds it prints the execution —
including any structured remote error carried in `result.Error` — and
returns nil.  It contains no `os.Exit` call. -/
def runSingleTask (transportErr : Option String) (result : Execution) :
    Except String Execution :=
  match transportErr with
  | some e => .error e
  | none => .ok result

/-- The surrounding process exit policy for a command handler's return
value: `rootCmd.Execute()` returning an error triggers `os.Exit(1)`
(`root.go`), a nil return exits 0. -/
def processExitCode (r : Except String Execution) : Nat :=
  match r with
  | .error _ => 1
  | .ok _ => 0

/-- Embeds the fields of the SDK's `command.Result` that the `exec` command
handler in `root.go` reads. -/
structure CommandResult where
  stdout : String
  stderr : String
  exitCode : Nat
  err : Option String

/-- Embeds the tail of the non-streaming `exec` handler in `root.go`:
`if result.ExitCode != 0 { os.Exit(int(result.ExitCode)) }; return nil`. -/
def execCommandExitCode (result : CommandResult) : Nat :=
  if result.exitCode ≠ 0 then result.exitCode else 0

/-- C6 counterexample: a single-task fast-path run whose remote code fails
(`result.Error = SystemExit: 1`, i.e. the remote process ended with status
1) still produces process exit code 0 — `runSingleTask` returns nil and
never propagates a remote status, contradicting the claim that the nonzero
remote status becomes the command's exit code. -/
theorem single_task_no_exit_propagation_cex :
    runSingleTask none ⟨[], ["SystemExit: 1"], some ⟨"SystemExit", "1", ""⟩⟩ =
      .ok ⟨[], ["SystemExit: 1"], some ⟨"SystemExit", "1", ""⟩⟩ ∧
    processExitCode
      (runSingleTask none
        ⟨[], ["SystemExit: 1"], some ⟨"SystemExit", "1", ""⟩⟩) = 0 ∧
    (0 : Nat) ≠ 1 :=
  ⟨rfl, rfl, by decide⟩

/-- C6 amended: in the single-task fast path the remote execution outcome
never influences the process exit code — whenever transport succeeds the
command exits 0 regardless of any structured remote error, since
`runSingleTask` contains no `os.Exit`; remote exit-status propagation exists
only in the separate `exec` command handler, which exits with
`result.ExitCode` whenever it is non-zero. -/
theorem single_task_exit_amended :
    (∀ result : Execution,
      processExitCode (runSingleTask none result) = 0) ∧
    (∀ result : CommandResult, execCommandExitCode result = result.exitCode) := by
  constructor
  · intro result
    rfl
  · intro result
    unfold execCommandExitCode
    by_cases h : result.exitCode ≠ 0
    · rw [if_pos h]
    · rw [if_neg h]
      simp only [ne_eq, not_not] at h
      exact h.symm
